import Mathlib

/-!
Shallow embedding of the Sony XBR HX909 serial command codec from
src/xbrhx909/command.py: the checksum unit (_chksum), the frame builder and
wire codec inside _cmd (binascii.a2b_hex aliased as hexencode,
binascii.b2a_hex aliased as hexdecode), the response splitter (_nsplit),
and the response classification of _cmd.  Machine bytes are modelled as
Nat with explicit bounds; Python exceptions are modelled as an error type.
-/

namespace XBR

/-- Python exception outcomes that the _cmd transaction can surface. -/
inductive PyErr where
  | indexError
  | valueError
  | encodeError
  | responseError
  | limitOverError
  | limitUnderError
  | commandCancelled
  | parseError
  deriving DecidableEq

/-- A dynamically typed command field as the Python code receives it:
either an int or a str. -/
inductive PyVal where
  | int (n : Nat)
  | str (s : String)
  deriving DecidableEq

/-- Lowercase hexadecimal digit character for a value below 16, exactly the
digit alphabet Python's hex() uses. -/
def hexDigitChar (d : Nat) : Char :=
  if d < 10 then Char.ofNat (48 + d) else Char.ofNat (87 + d)

/-- Fuelled most-significant-digit-first accumulation of the hex digits of
n; fuel n + 1 always suffices. -/
def hexDigitsCore : Nat → Nat → List Char → List Char
  | 0, _, acc => acc
  | fuel + 1, n, acc =>
    if n < 16 then hexDigitChar n :: acc
    else hexDigitsCore fuel (n / 16) (hexDigitChar (n % 16) :: acc)

/-- Hex digits of n, lowercase and without prefix: Python hex(n)[2:] for a
nonnegative n. -/
def hexRepr (n : Nat) : List Char := hexDigitsCore (n + 1) n []

/-- Python str.zfill(2): left-pad with zero characters to width two. -/
def zfill2 (s : String) : String :=
  if 2 ≤ s.length then s else String.mk (List.replicate (2 - s.length) '0' ++ s.data)

/-- hex(n)[2:].zfill(2), the int-to-hex-text normalization used throughout
_cmd and _chksum. -/
def hexStr (n : Nat) : String := zfill2 (String.mk (hexRepr n))

/-- Value of a single hexadecimal digit character (0-9, a-f, A-F); none on
any other character. -/
def hexDigitVal (c : Char) : Option Nat :=
  if 48 ≤ c.toNat ∧ c.toNat ≤ 57 then some (c.toNat - 48)
  else if 97 ≤ c.toNat ∧ c.toNat ≤ 102 then some (c.toNat - 87)
  else if 65 ≤ c.toNat ∧ c.toNat ≤ 70 then some (c.toNat - 55)
  else none

/-- Elementwise fallible map: some of the mapped list when f succeeds on
every element, none as soon as one fails — the effect of a Python list
comprehension whose body can raise. -/
def optMapM (f : α → Option β) : List α → Option (List β)
  | [] => some []
  | a :: l =>
    match f a, optMapM f l with
    | some b, some bs => some (b :: bs)
    | _, _ => none

/-- Character-level body of parseHex. -/
def parseHexChars : List Char → Option Nat
  | [] => none
  | cs => (optMapM hexDigitVal cs).map (List.foldl (fun a d => 16 * a + d) 0)

/-- Model of Python int(s, 16) restricted to the bare hex-digit strings this
library manipulates (Python would additionally strip whitespace and accept
an optional sign and 0x marker, none of which occur in the code's data);
none models the ValueError raised on text that is not valid hexadecimal. -/
def parseHex (s : String) : Option Nat := parseHexChars s.data

/-- binascii.a2b_hex on a character list: consecutive pairs of hex digits
become byte values; none models the TypeError raised on an odd length or a
non-hexadecimal character. -/
def a2bPairs : List Char → Option (List Nat)
  | [] => some []
  | [_] => none
  | c1 :: c2 :: rest =>
    match hexDigitVal c1, hexDigitVal c2, a2bPairs rest with
    | some h, some l, some bs => some ((16 * h + l) :: bs)
    | _, _, _ => none

/-- binascii.a2b_hex, imported by the code under the alias hexencode: hex
text to raw bytes. -/
def a2bHex (s : String) : Option (List Nat) := a2bPairs s.data

/-- binascii.b2a_hex, imported by the code under the alias hexdecode: each
raw byte becomes two lowercase hex characters. -/
def b2aHex (bs : List Nat) : String :=
  String.mk ((bs.map fun b => (hexStr b).data).flatten)

/-- Character-level grouping used by _nsplit: runs of two, a trailing
singleton when the length is odd. -/
def nsplitChars : List Char → List (List Char)
  | [] => []
  | [c] => [[c]]
  | c1 :: c2 :: rest => [c1, c2] :: nsplitChars rest

/-- SonyXBRHX909._nsplit: split a string into two-character groups. -/
def nsplit (s : String) : List String := (nsplitChars s.data).map String.mk

/-- Python ''.join over a list of strings. -/
def joinStr (l : List String) : String := String.mk ((l.map String.data).flatten)

/-- Textual branch of SonyXBRHX909._chksum: int(c, 16) every element, sum,
reduce modulo 256, render as hex(binsum)[2:4].zfill(2); since the reduced
sum is below 256 that rendering coincides with hexStr.  none models the
ValueError from a non-hex element. -/
def chksumStr (cmd : List String) : Option String :=
  (optMapM parseHex cmd).map fun ns => hexStr (ns.sum % 256)

/-- Extract a str element, none when the element is an int (models the
TypeError int(c, 16) raises on a non-string in the textual branch). -/
def toStr : PyVal → Option String
  | PyVal.str s => some s
  | PyVal.int _ => none

/-- Extract an int element, none when the element is a str (models the
TypeError sum() raises on a mixed list in the numeric branch). -/
def toInt : PyVal → Option Nat
  | PyVal.int n => some n
  | PyVal.str _ => none

/-- SonyXBRHX909._chksum: branch on the type of the first element; textual
input is hex-parsed, summed and rendered back as two lowercase hex
characters, numeric input is summed and reduced modulo 256 (the code only
reduces when the sum exceeds 255, which is the same result).  none models
the exceptions: IndexError on an empty sequence, TypeError or ValueError on
a heterogeneous or non-hex one. -/
def chksum : List PyVal → Option PyVal
  | [] => none
  | PyVal.str s :: rest =>
    (optMapM toStr (PyVal.str s :: rest)).bind fun ss => (chksumStr ss).map PyVal.str
  | PyVal.int n :: rest =>
    (optMapM toInt (PyVal.int n :: rest)).map fun ns => PyVal.int (ns.sum % 256)

/-- Python truthiness of the values _cmd tests with `if not byte0`: the int
0 and the empty string are falsy, every other int or str is truthy. -/
def isFalsy : PyVal → Bool
  | PyVal.int 0 => true
  | PyVal.str "" => true
  | _ => false

/-- Truthiness of an optional override: an absent (None) override is falsy. -/
def isTruthy : Option PyVal → Bool
  | none => false
  | some v => !(isFalsy v)

/-- Field normalization performed by _cmd: an int becomes
hex(d)[2:].zfill(2), a str passes through unchanged. -/
def normField : PyVal → String
  | PyVal.int n => hexStr n
  | PyVal.str s => s

/-- Header byte resolution in _cmd: a falsy or absent override is replaced
by the class default, then an int value is hex-normalized. -/
def resolveHeader (dflt : String) (ov : Option PyVal) : String :=
  match ov with
  | none => dflt
  | some v => if isFalsy v then dflt else normField v

/-- Frame assembly portion of SonyXBRHX909._cmd, through the checksum
append: std_cmd stays true only when both header overrides are truthy (the
code sets it to false whenever a default is substituted); headers resolve
to the class defaults 8C and 00; command[0] is the category, command[1]
the declared length (hex-parsed into required_length), the rest the data;
every field is normalized to hex text; when std_cmd holds and
len(data) + 1 differs from required_length, the data is left-padded with
required_length - len(data) - 1 zero-byte strings (an empty pad when that
difference is negative, as Python's range yields); the checksum over the
assembled fields is appended.  Errors model the uncaught Python
exceptions: IndexError on a command with fewer than two fields, ValueError
from int(length, 16) or from the checksum's int(c, 16). -/
def buildCmd (command : List PyVal) (byte0 byte1 : Option PyVal) :
    Except PyErr (List String) :=
  let std_cmd := isTruthy byte0 && isTruthy byte1
  let b0 := resolveHeader "8C" byte0
  let b1 := resolveHeader "00" byte1
  match command with
  | [] => Except.error PyErr.indexError
  | [_] => Except.error PyErr.indexError
  | c0 :: c1 :: rest =>
    let code := normField c0
    let length := normField c1
    match parseHex length with
    | none => Except.error PyErr.valueError
    | some required_length =>
      let data := rest.map normField
      let data_length := data.length + 1
      let data :=
        if std_cmd && (data_length != required_length) then
          List.replicate (required_length - data_length) "00" ++ data
        else data
      let cmd := b0 :: b1 :: code :: length :: data
      match chksumStr cmd with
      | none => Except.error PyErr.valueError
      | some ck => Except.ok (cmd ++ [ck])

/-- The transmission-encoding step of _cmd: hexencode (that is,
binascii.a2b_hex) the joined field text; the TypeError it raises is caught
and re-raised as EncodeError.  The ok value is the raw byte sequence the
code hands to self.__conn.write. -/
def encodeCmd (cmd : List String) : Except PyErr (List Nat) :=
  match a2bHex (joinStr cmd) with
  | none => Except.error PyErr.encodeError
  | some bs => Except.ok bs

/-- Frame build followed by encode: the exact byte sequence _cmd writes to
the channel, or the exception raised before anything is written. -/
def frameWrite (command : List PyVal) (byte0 byte1 : Option PyVal) :
    Except PyErr (List Nat) :=
  match buildCmd command byte0 byte1 with
  | Except.error e => Except.error e
  | Except.ok cmd => encodeCmd cmd

/-- Response decode and extraction step of _cmd: hexdecode (that is,
binascii.b2a_hex) the received raw bytes into hex text, split it into
two-character groups with _nsplit, and take group 1; the IndexError on a
missing group is caught and re-raised as ResponseError. -/
def parseResp (response : List Nat) : Except PyErr String :=
  match (nsplit (b2aHex response)).get? 1 with
  | none => Except.error PyErr.responseError
  | some code => Except.ok code

/-- Response-code classification of _cmd: 01 through 04 raise the four
device-reported errors, every other code (00 included) is returned. -/
def classify (code : String) : Except PyErr String :=
  if code = "01" then Except.error PyErr.limitOverError
  else if code = "02" then Except.error PyErr.limitUnderError
  else if code = "03" then Except.error PyErr.commandCancelled
  else if code = "04" then Except.error PyErr.parseError
  else Except.ok code

/-- Receive stage of _cmd: r6 is what self.__conn.read(6) returned and r3
what the retry self.__conn.read(3) would return; the retry is consulted
only when the first read came back empty, and an empty response raises
ResponseError before any decoding is attempted. -/
def receive (r6 r3 : List Nat) : Except PyErr String :=
  let response := if r6.length = 0 then r3 else r6
  if response.length = 0 then Except.error PyErr.responseError
  else
    match parseResp response with
    | Except.error e => Except.error e
    | Except.ok code => classify code

/-- Whole-transaction model of _cmd: build and encode the frame (a failure
surfaces before anything reaches the channel), then receive, decode and
classify the response. -/
def cmdModel (command : List PyVal) (byte0 byte1 : Option PyVal)
    (r6 r3 : List Nat) : Except PyErr String :=
  match frameWrite command byte0 byte1 with
  | Except.error e => Except.error e
  | Except.ok _ => receive r6 r3

/-- Character-level body of isHexPair. -/
def isHexPairChars : List Char → Bool
  | [c1, c2] => (hexDigitVal c1).isSome && (hexDigitVal c2).isSome
  | _ => false

/-- s consists of exactly two hexadecimal digit characters. -/
def isHexPair (s : String) : Bool := isHexPairChars s.data

/-- Character-level body of hexPairVal. -/
def hexPairValChars : List Char → Nat
  | [c1, c2] => 16 * (hexDigitVal c1).getD 0 + (hexDigitVal c2).getD 0
  | _ => 0

/-- Byte value denoted by a two-hex-digit string (0 on any other shape). -/
def hexPairVal (s : String) : Nat := hexPairValChars s.data

/-! Helper lemmas about the hex digit alphabet and the byte codec. -/

set_option maxRecDepth 4000 in
theorem hexStr_lt256 : ∀ n < 256, hexStr n =
    String.mk [hexDigitChar (n / 16), hexDigitChar (n % 16)] := by decide

theorem data_hexStr {n : Nat} (h : n < 256) :
    (hexStr n).data = [hexDigitChar (n / 16), hexDigitChar (n % 16)] := by
  rw [hexStr_lt256 n h]

theorem length_hexStr {n : Nat} (h : n < 256) : (hexStr n).length = 2 := by
  rw [hexStr_lt256 n h]
  rfl

theorem hexDigitVal_hexDigitChar : ∀ d < 16, hexDigitVal (hexDigitChar d) = some d := by
  decide

theorem hexDigitVal_lt {c : Char} {d : Nat} (h : hexDigitVal c = some d) : d < 16 := by
  unfold hexDigitVal at h
  split_ifs at h with h1 h2 h3 <;> simp only [Option.some.injEq] at h <;> omega

theorem a2bPairs_b2a : ∀ (bs : List Nat), (∀ b ∈ bs, b < 256) →
    a2bPairs ((bs.map fun b => (hexStr b).data).flatten) = some bs := by
  intro bs
  induction bs with
  | nil => intro _; rfl
  | cons b rest ih =>
    intro h
    have hb : b < 256 := h b (List.mem_cons_self _ _)
    have hrest : ∀ x ∈ rest, x < 256 := fun x hx => h x (List.mem_cons_of_mem _ hx)
    simp only [List.map_cons, List.flatten_cons, data_hexStr hb, List.cons_append,
      List.nil_append]
    simp only [a2bPairs, hexDigitVal_hexDigitChar (b / 16) (by omega),
      hexDigitVal_hexDigitChar (b % 16) (by omega), ih hrest]
    simp [Nat.div_add_mod]

theorem a2bPairs_lt : ∀ (bs : List Nat) (cs : List Char),
    a2bPairs cs = some bs → ∀ b ∈ bs, b < 256 := by
  intro bs
  induction bs with
  | nil => simp
  | cons b rest ih =>
    intro cs h x hx
    match cs with
    | [] => simp [a2bPairs] at h
    | [c] => simp [a2bPairs] at h
    | c1 :: c2 :: cs2 =>
      simp only [a2bPairs] at h
      cases h1 : hexDigitVal c1 with
      | none => rw [h1] at h; simp at h
      | some v1 =>
        cases h2 : hexDigitVal c2 with
        | none => rw [h1, h2] at h; simp at h
        | some v2 =>
          cases h3 : a2bPairs cs2 with
          | none => rw [h1, h2, h3] at h; simp at h
          | some bs2 =>
            rw [h1, h2, h3] at h
            simp only [Option.some.injEq, List.cons.injEq] at h
            obtain ⟨hbv, hrest⟩ := h
            rcases List.mem_cons.mp hx with hxb | hxr
            · have hv1 := hexDigitVal_lt h1
              have hv2 := hexDigitVal_lt h2
              omega
            · exact ih cs2 (hrest ▸ h3) x hxr

theorem nsplitChars_flatten : ∀ (bs : List Nat), (∀ b ∈ bs, b < 256) →
    nsplitChars ((bs.map fun b => (hexStr b).data).flatten) =
      bs.map fun b => (hexStr b).data := by
  intro bs
  induction bs with
  | nil => intro _; rfl
  | cons b rest ih =>
    intro h
    have hb : b < 256 := h b (List.mem_cons_self _ _)
    have hrest : ∀ x ∈ rest, x < 256 := fun x hx => h x (List.mem_cons_of_mem _ hx)
    simp only [List.map_cons, List.flatten_cons, data_hexStr hb, List.cons_append,
      List.nil_append, nsplitChars]
    exact congrArg (List.cons _) (ih hrest)

theorem nsplit_b2aHex (bs : List Nat) (h : ∀ b ∈ bs, b < 256) :
    nsplit (b2aHex bs) = bs.map hexStr := by
  show (nsplitChars ((bs.map fun b => (hexStr b).data).flatten)).map String.mk
      = bs.map hexStr
  rw [nsplitChars_flatten bs h]
  rw [List.map_map]
  rfl

theorem parseResp_ok (bs : List Nat) (h1 : 1 < bs.length) (hb : ∀ b ∈ bs, b < 256) :
    parseResp bs = Except.ok (hexStr (bs.get ⟨1, h1⟩)) := by
  unfold parseResp
  rw [nsplit_b2aHex bs hb, List.get?_map, List.get?_eq_get h1]
  rfl

theorem classify_ne_respErr (c : String) :
    classify c ≠ Except.error PyErr.responseError := by
  unfold classify
  split_ifs <;> intro hc
  · exact PyErr.noConfusion (Except.error.inj hc)
  · exact PyErr.noConfusion (Except.error.inj hc)
  · exact PyErr.noConfusion (Except.error.inj hc)
  · exact PyErr.noConfusion (Except.error.inj hc)
  · exact Except.noConfusion hc

theorem optMapM_toStr : ∀ ss : List String, optMapM toStr (ss.map PyVal.str) = some ss := by
  intro ss
  induction ss with
  | nil => rfl
  | cons s rest ih => simp [optMapM, toStr, ih]

theorem optMapM_toInt : ∀ ns : List Nat, optMapM toInt (ns.map PyVal.int) = some ns := by
  intro ns
  induction ns with
  | nil => rfl
  | cons n rest ih => simp [optMapM, toInt, ih]

theorem isHexPairChars_shape : ∀ cs : List Char, isHexPairChars cs = true →
    ∃ c1 c2 v1 v2, cs = [c1, c2] ∧ hexDigitVal c1 = some v1 ∧
      hexDigitVal c2 = some v2 ∧ hexPairValChars cs = 16 * v1 + v2 := by
  intro cs h
  match cs with
  | [] => simp [isHexPairChars] at h
  | [c] => simp [isHexPairChars] at h
  | [c1, c2] =>
    simp only [isHexPairChars, Bool.and_eq_true, Option.isSome_iff_exists] at h
    obtain ⟨⟨v1, hv1⟩, v2, hv2⟩ := h
    exact ⟨c1, c2, v1, v2, rfl, hv1, hv2, by simp [hexPairValChars, hv1, hv2]⟩
  | c1 :: c2 :: c3 :: cs2 => simp [isHexPairChars] at h

theorem parseHex_isHexPair (s : String) (h : isHexPair s = true) :
    parseHex s = some (hexPairVal s) := by
  obtain ⟨c1, c2, v1, v2, hd, hv1, hv2, hval⟩ := isHexPairChars_shape s.data h
  unfold parseHex hexPairVal
  rw [hd] at hval ⊢
  rw [hval]
  simp [parseHexChars, optMapM, hv1, hv2]

theorem hexPairVal_lt (s : String) (h : isHexPair s = true) : hexPairVal s < 256 := by
  obtain ⟨c1, c2, v1, v2, hd, hv1, hv2, hval⟩ := isHexPairChars_shape s.data h
  have b1 := hexDigitVal_lt hv1
  have b2 := hexDigitVal_lt hv2
  unfold hexPairVal
  rw [hd] at hval
  rw [hd, hval]
  omega

theorem optMapM_parseHex_pairs : ∀ ss : List String, (∀ s ∈ ss, isHexPair s = true) →
    optMapM parseHex ss = some (ss.map hexPairVal) := by
  intro ss
  induction ss with
  | nil => intro _; rfl
  | cons s rest ih =>
    intro h
    have hs := h s (List.mem_cons_self _ _)
    have hrest : ∀ x ∈ rest, isHexPair x = true :=
      fun x hx => h x (List.mem_cons_of_mem _ hx)
    simp [optMapM, parseHex_isHexPair s hs, ih hrest]

theorem chksumStr_pairs (ss : List String) (h : ∀ s ∈ ss, isHexPair s = true) :
    chksumStr ss = some (hexStr ((ss.map hexPairVal).sum % 256)) := by
  unfold chksumStr
  rw [optMapM_parseHex_pairs ss h]
  rfl

theorem a2bPairs_flatten_pairs : ∀ ss : List String, (∀ s ∈ ss, isHexPair s = true) →
    a2bPairs ((ss.map String.data).flatten) = some (ss.map hexPairVal) := by
  intro ss
  induction ss with
  | nil => intro _; rfl
  | cons s rest ih =>
    intro h
    have hs := h s (List.mem_cons_self _ _)
    have hrest : ∀ x ∈ rest, isHexPair x = true :=
      fun x hx => h x (List.mem_cons_of_mem _ hx)
    obtain ⟨c1, c2, v1, v2, hd, hv1, hv2, hval⟩ := isHexPairChars_shape s.data hs
    simp only [List.map_cons, List.flatten_cons, hd, List.cons_append, List.nil_append]
    simp only [a2bPairs, hv1, hv2, ih hrest]
    have hv : hexPairVal s = 16 * v1 + v2 := by
      unfold hexPairVal
      rw [hd] at hval
      rw [hd, hval]
    rw [hv]

/-- Inner iff for the receive stage once the effective response is fixed and
nonempty: the decode-and-classify part yields ResponseError exactly when the
decoded text splits into fewer than two groups. -/
theorem recvMatch_iff (resp : List Nat) (h0 : resp ≠ []) (hb : ∀ b ∈ resp, b < 256) :
    ((match parseResp resp with
      | Except.error e => Except.error e
      | Except.ok code => classify code) = Except.error PyErr.responseError ↔
      (nsplit (b2aHex resp)).length < 2) := by
  rcases resp with _ | ⟨b1, rest⟩
  · exact absurd rfl h0
  rcases rest with _ | ⟨b2, rest2⟩
  · have hns := nsplit_b2aHex [b1] hb
    have hpr : parseResp [b1] = Except.error PyErr.responseError := by
      unfold parseResp
      rw [hns]
      rfl
    rw [hpr, hns]
    simp
  · have h1 : 1 < (b1 :: b2 :: rest2).length := by
      simp only [List.length_cons]
      omega
    rw [parseResp_ok _ h1 hb]
    have hns := nsplit_b2aHex (b1 :: b2 :: rest2) hb
    rw [hns]
    simp only [List.length_map, List.length_cons]
    constructor
    · intro hcl
      exact absurd hcl (classify_ne_respErr _)
    · intro hlt
      exact absurd hlt (by omega)

/-! Claim theorems. -/

/-- C1: the claim states that _cmd zero-pads a length-mismatched payload
exactly when both header overrides are absent (default headers), and never
pads on the override path.  The code does the reverse: std_cmd is set to
false whenever a default header is substituted, and the padding branch
requires std_cmd, so the default-header command 04 03 00 (declared length
3, payload + checksum only 2) is built without padding, while the same
command with truthy overrides 81/10 is padded to the declared length.
This theorem evaluates the embedded builder at both inputs, exhibiting the
inversion; the code contradicts its own comment (padding is for issuing TV
commands, which are the default-8C-header ones) and the name std_cmd. -/
theorem C1_padding_on_override_path_only :
    buildCmd [PyVal.str "04", PyVal.str "03", PyVal.str "00"] none none =
      Except.ok ["8C", "00", "04", "03", "00", "93"] ∧
    buildCmd [PyVal.str "04", PyVal.str "03", PyVal.str "00"]
        (some (PyVal.str "81")) (some (PyVal.str "10")) =
      Except.ok ["81", "10", "04", "03", "00", "00", "98"] :=
  ⟨rfl, rfl⟩

/-- C2 counterexample: for the power-on command the byte sequence handed to
the channel write is the six raw binary frame bytes 8C 00 00 02 01 8F, not
a twelve-byte ASCII hex text; its length equals the frame's field count
rather than twice it, and it differs from the ASCII codes of the frame's
hex text. -/
theorem C2_counterexample :
    buildCmd [PyVal.str "00", PyVal.str "02", PyVal.str "01"] none none =
      Except.ok ["8C", "00", "00", "02", "01", "8f"] ∧
    frameWrite [PyVal.str "00", PyVal.str "02", PyVal.str "01"] none none =
      Except.ok [140, 0, 0, 2, 1, 143] ∧
    ([140, 0, 0, 2, 1, 143] : List Nat).length ≠
      2 * (["8C", "00", "00", "02", "01", "8f"] : List String).length ∧
    [140, 0, 0, 2, 1, 143] ≠
      (joinStr ["8C", "00", "00", "02", "01", "8f"]).data.map Char.toNat :=
  ⟨rfl, rfl, by decide, by decide⟩

/-- C2 amended: what _cmd hands to the channel write is the raw binary
frame itself, one channel byte per two-hex-digit frame field (the hexencode
alias is binascii.a2b_hex, text to binary), so the channel traffic has the
same length as the frame's byte sequence, half the length of its hex text. -/
theorem C2_wire_is_raw_binary (command : List PyVal) (byte0 byte1 : Option PyVal)
    (fields : List String) (h : buildCmd command byte0 byte1 = Except.ok fields)
    (h2 : ∀ s ∈ fields, isHexPair s = true) :
    frameWrite command byte0 byte1 = Except.ok (fields.map hexPairVal) ∧
    (fields.map hexPairVal).length = fields.length := by
  constructor
  · unfold frameWrite
    rw [h]
    have hj : a2bHex (joinStr fields) = some (fields.map hexPairVal) := by
      show a2bPairs ((fields.map String.data).flatten) = some (fields.map hexPairVal)
      exact a2bPairs_flatten_pairs fields h2
    show (match a2bHex (joinStr fields) with
      | none => Except.error PyErr.encodeError
      | some bs => Except.ok bs) = Except.ok (fields.map hexPairVal)
    rw [hj]
  · simp

theorem C2_wire_is_raw_binary_witness :
    frameWrite [PyVal.str "00", PyVal.str "02", PyVal.str "01"] none none =
      Except.ok ((["8C", "00", "00", "02", "01", "8f"] : List String).map hexPairVal) ∧
    ((["8C", "00", "00", "02", "01", "8f"] : List String).map hexPairVal).length =
      (["8C", "00", "00", "02", "01", "8f"] : List String).length :=
  C2_wire_is_raw_binary [PyVal.str "00", PyVal.str "02", PyVal.str "01"] none none
    ["8C", "00", "00", "02", "01", "8f"] rfl (by decide)

/-- C3: the claim states that a default-header command with no oversupplied
data always builds a frame of 4 + requiredLength bytes, short payloads
being left-padded with zero bytes.  Because the padding branch requires
std_cmd, which the code turns off on the default-header path, the
default-header command 04 03 00 (declared length 3) builds a 6-byte frame
instead of the claimed 4 + 3 = 7: evaluation of the embedded builder at the
failing input. -/
theorem C3_default_header_frame_not_padded :
    frameWrite [PyVal.str "04", PyVal.str "03", PyVal.str "00"] none none =
      Except.ok [140, 0, 4, 3, 0, 147] ∧
    parseHex "03" = some 3 ∧
    ([140, 0, 4, 3, 0, 147] : List Nat).length ≠ 4 + 3 :=
  ⟨rfl, rfl, by decide⟩

/-- C4 counterexample: the claim says the received channel bytes are
hex-decoded into raw bytes, so receiving the hex text 700003 would yield
the bytes 70 00 03 and the code 00.  The code instead hex-encodes the
received raw bytes (hexdecode is binascii.b2a_hex, binary to text): fed the
six ASCII characters of the text 700003 (bytes 37 30 30 30 30 33), the
response extractor returns 30, not 00. -/
theorem C4_counterexample :
    parseResp [55, 48, 48, 48, 48, 51] = Except.ok "30" ∧
    (Except.ok "30" : Except PyErr String) ≠ Except.ok "00" :=
  ⟨rfl, fun hc => absurd (Except.ok.inj hc) (by decide)⟩

/-- C4 amended: parseResponse hex-encodes the received raw channel bytes
into two-hex-digit text groups, one group per byte, and returns the group
at logical position 1; for received raw bytes 70 00 03 (whose hex text is
700003) it returns 00. -/
theorem C4_parse_response (bs : List Nat) (h1 : 1 < bs.length)
    (hb : ∀ b ∈ bs, b < 256) :
    parseResp bs = Except.ok (hexStr (bs.get ⟨1, h1⟩)) :=
  parseResp_ok bs h1 hb

theorem C4_parse_response_witness :
    1 < ([112, 0, 3] : List Nat).length ∧
    parseResp [112, 0, 3] = Except.ok "00" :=
  ⟨by decide, C4_parse_response [112, 0, 3] (by decide) (by decide)⟩

/-- C5: in a transaction whose response decodes to at least two byte
groups, the receive stage classifies the extracted code: 00 is returned as
00, 01 raises LimitOverError, 02 LimitUnderError, 03 CommandCancelled,
04 ParseError, and any other code is returned as-is. -/
theorem C5_classification (bs : List Nat) (h1 : 1 < bs.length)
    (hb : ∀ b ∈ bs, b < 256) (c : String)
    (hc : c ∉ (["01", "02", "03", "04"] : List String)) :
    receive bs [] = classify (hexStr (bs.get ⟨1, h1⟩)) ∧
    classify "00" = Except.ok "00" ∧
    classify "01" = Except.error PyErr.limitOverError ∧
    classify "02" = Except.error PyErr.limitUnderError ∧
    classify "03" = Except.error PyErr.commandCancelled ∧
    classify "04" = Except.error PyErr.parseError ∧
    classify c = Except.ok c := by
  refine ⟨?_, rfl, rfl, rfl, rfl, rfl, ?_⟩
  · have hne : ¬ bs.length = 0 := by omega
    simp only [receive, List.length_nil, if_neg hne, parseResp_ok bs h1 hb]
  · have hc1 : c ≠ "01" := fun hh => hc (by simp [hh])
    have hc2 : c ≠ "02" := fun hh => hc (by simp [hh])
    have hc3 : c ≠ "03" := fun hh => hc (by simp [hh])
    have hc4 : c ≠ "04" := fun hh => hc (by simp [hh])
    unfold classify
    rw [if_neg hc1, if_neg hc2, if_neg hc3, if_neg hc4]

theorem C5_classification_witness :
    receive [112, 0, 3] [] = Except.ok "00" ∧ classify "05" = Except.ok "05" :=
  ⟨(C5_classification [112, 0, 3] (by decide) (by decide) "05" (by decide)).1,
   (C5_classification [112, 0, 3] (by decide) (by decide) "05"
      (by decide)).2.2.2.2.2.2⟩

/-- C6: a transaction that reaches the receive stage raises ResponseError
exactly when either both the fast-path read of up to 6 bytes and the retry
read of up to 3 bytes return zero bytes (in which case the error is raised
before any decoding), or the received bytes decode to fewer than two
logical byte groups. -/
theorem C6_response_error_iff (r6 r3 : List Nat) (h6 : r6.length ≤ 6)
    (h3 : r3.length ≤ 3) (hb : ∀ b ∈ r6 ++ r3, b < 256) :
    (receive r6 r3 = Except.error PyErr.responseError ↔
      (r6 = [] ∧ r3 = []) ∨
        (nsplit (b2aHex (if r6.length = 0 then r3 else r6))).length < 2) := by
  have hb6 : ∀ b ∈ r6, b < 256 := fun b hh => hb b (List.mem_append_left _ hh)
  have hb3 : ∀ b ∈ r3, b < 256 := fun b hh => hb b (List.mem_append_right _ hh)
  by_cases h60 : r6.length = 0
  · have hr6 : r6 = [] := List.length_eq_zero.mp h60
    subst hr6
    by_cases h30 : r3.length = 0
    · have hr3 : r3 = [] := List.length_eq_zero.mp h30
      subst hr3
      simp [receive, nsplit, b2aHex, nsplitChars]
    · have hr3 : r3 ≠ [] := fun hh => h30 (by rw [hh]; rfl)
      have hrw : receive [] r3 =
          (match parseResp r3 with
            | Except.error e => Except.error e
            | Except.ok code => classify code) := by
        unfold receive
        simp [h30]
      rw [hrw, recvMatch_iff r3 hr3 hb3]
      simp [hr3]
  · have hr6 : r6 ≠ [] := fun hh => h60 (by rw [hh]; rfl)
    have hrw : receive r6 r3 =
        (match parseResp r6 with
          | Except.error e => Except.error e
          | Except.ok code => classify code) := by
      unfold receive
      simp [h60]
    rw [hrw, recvMatch_iff r6 hr6 hb6]
    simp [h60, hr6]

theorem C6_response_error_iff_witness :
    receive [112] [] = Except.error PyErr.responseError ↔
      (([112] : List Nat) = [] ∧ ([] : List Nat) = []) ∨
        (nsplit (b2aHex (if ([112] : List Nat).length = 0 then [] else [112]))).length < 2 :=
  C6_response_error_iff [112] [] (by decide) (by decide) (by decide)

/-- C7: on a nonempty homogeneous sequence, _chksum returns the arithmetic
sum reduced modulo 256 in the representation of the input: an int for
numeric byte values, and a two-character zero-padded hexadecimal string
(lowercase, by the digit alphabet of hexDigitChar) for two-hex-digit
string values. -/
theorem C7_chksum_mod256 (ns : List Nat) (ss : List String)
    (hn : ns ≠ []) (hs : ss ≠ [])
    (hnb : ∀ n ∈ ns, n < 256) (hsb : ∀ s ∈ ss, isHexPair s = true) :
    chksum (ns.map PyVal.int) = some (PyVal.int (ns.sum % 256)) ∧
    chksum (ss.map PyVal.str) =
      some (PyVal.str (hexStr ((ss.map hexPairVal).sum % 256))) ∧
    (hexStr ((ss.map hexPairVal).sum % 256)).length = 2 := by
  refine ⟨?_, ?_, length_hexStr (Nat.mod_lt _ (by norm_num))⟩
  · rcases ns with _ | ⟨n, rest⟩
    · exact absurd rfl hn
    · simp only [List.map_cons, chksum]
      have hm := optMapM_toInt (n :: rest)
      simp only [List.map_cons] at hm
      rw [hm]
      rfl
  · rcases ss with _ | ⟨s, rest⟩
    · exact absurd rfl hs
    · simp only [List.map_cons, chksum]
      have hm := optMapM_toStr (s :: rest)
      simp only [List.map_cons] at hm
      rw [hm]
      have hcs := chksumStr_pairs (s :: rest) hsb
      show (chksumStr (s :: rest)).map PyVal.str =
        some (PyVal.str (hexStr (((s :: rest).map hexPairVal).sum % 256)))
      rw [hcs]
      rfl

theorem C7_chksum_mod256_witness :
    chksum ([140, 255].map PyVal.int) = some (PyVal.int 139) ∧
    chksum (["8C", "FF"].map PyVal.str) = some (PyVal.str "8b") :=
  ⟨(C7_chksum_mod256 [140, 255] ["8C", "FF"] (by decide) (by decide)
      (by decide) (by decide)).1,
   (C7_chksum_mod256 [140, 255] ["8C", "FF"] (by decide) (by decide)
      (by decide) (by decide)).2.1⟩

/-- C8 counterexample: a command field that is not valid hex text makes the
transaction fail with the uncaught ValueError from int(c, 16) inside
_chksum, not with EncodeError as the claim states. -/
theorem C8_counterexample :
    frameWrite [PyVal.str "zz", PyVal.str "02", PyVal.str "01"] none none =
      Except.error PyErr.valueError ∧
    (Except.error PyErr.valueError : Except PyErr (List Nat)) ≠
      Except.error PyErr.encodeError :=
  ⟨rfl, fun hc => PyErr.noConfusion (Except.error.inj hc)⟩

/-- C8 amended: every frame-building failure (the propagated ValueError on
a field that does not hex-parse as well as the EncodeError raised when the
assembled text is not valid even-length hex) surfaces before anything is
handed to the channel write: the whole transaction fails with that error
regardless of the channel reads.  EncodeError specifically arises only at
the hexencode step, e.g. on a field with an odd number of hex digits. -/
theorem C8_encode_failure_before_write (command : List PyVal)
    (byte0 byte1 : Option PyVal) (e : PyErr) (r6 r3 : List Nat)
    (h : frameWrite command byte0 byte1 = Except.error e) :
    cmdModel command byte0 byte1 r6 r3 = Except.error e ∧
    frameWrite [PyVal.str "zz", PyVal.str "02", PyVal.str "01"] none none =
      Except.error PyErr.valueError ∧
    frameWrite [PyVal.str "0", PyVal.str "02", PyVal.str "01"] none none =
      Except.error PyErr.encodeError := by
  refine ⟨?_, rfl, rfl⟩
  unfold cmdModel
  rw [h]

theorem C8_encode_failure_before_write_witness :
    cmdModel [PyVal.str "zz", PyVal.str "02", PyVal.str "01"] none none [] [] =
      Except.error PyErr.valueError ∧
    frameWrite [PyVal.str "zz", PyVal.str "02", PyVal.str "01"] none none =
      Except.error PyErr.valueError ∧
    frameWrite [PyVal.str "0", PyVal.str "02", PyVal.str "01"] none none =
      Except.error PyErr.encodeError :=
  C8_encode_failure_before_write [PyVal.str "zz", PyVal.str "02", PyVal.str "01"]
    none none PyErr.valueError [] [] rfl

/-- C9: for every successfully encoded frame, the byte sequence produced by
the transmission-encoding step round-trips through the codec pair exactly:
hex-decoding it (b2a_hex) and re-encoding the resulting text (a2b_hex)
reproduces the frame's byte sequence identically, so the codec steps lose
no information at the byte level (the textual form is normalized to
lowercase, which does not affect the denoted bytes). -/
theorem C9_roundtrip (command : List PyVal) (byte0 byte1 : Option PyVal)
    (bs : List Nat) (h : frameWrite command byte0 byte1 = Except.ok bs) :
    a2bHex (b2aHex bs) = some bs := by
  have hlt : ∀ b ∈ bs, b < 256 := by
    unfold frameWrite at h
    cases hbc : buildCmd command byte0 byte1 with
    | error e => rw [hbc] at h; exact Except.noConfusion h
    | ok cmd =>
      rw [hbc] at h
      have hh : (match a2bHex (joinStr cmd) with
          | none => Except.error PyErr.encodeError
          | some bs2 => Except.ok bs2) = Except.ok bs := h
      cases ha : a2bHex (joinStr cmd) with
      | none => rw [ha] at hh; exact Except.noConfusion hh
      | some bs2 =>
        rw [ha] at hh
        have hbs : bs2 = bs := Except.ok.inj hh
        subst hbs
        exact a2bPairs_lt _ _ ha
  show a2bPairs ((bs.map fun b => (hexStr b).data).flatten) = some bs
  exact a2bPairs_b2a bs hlt

theorem C9_roundtrip_witness :
    a2bHex (b2aHex [140, 0, 0, 2, 1, 143]) = some [140, 0, 0, 2, 1, 143] :=
  C9_roundtrip [PyVal.str "00", PyVal.str "02", PyVal.str "01"] none none
    [140, 0, 0, 2, 1, 143] rfl

/-- C10: a header override that is Python-falsy (the int 0 or the empty
string) is treated by _cmd exactly as if no override had been passed: the
build is identical to the no-override build, in which the default header
byte (8C for byte0, 00 for byte1) is substituted and std_cmd — the
padding-eligibility flag — is turned off, so a falsy override can never
produce a non-default header byte. -/
theorem C10_falsy_override_is_default (command : List PyVal) (b : Option PyVal) :
    buildCmd command (some (PyVal.int 0)) b = buildCmd command none b ∧
    buildCmd command (some (PyVal.str "")) b = buildCmd command none b ∧
    buildCmd command b (some (PyVal.int 0)) = buildCmd command b none ∧
    buildCmd command b (some (PyVal.str "")) = buildCmd command b none :=
  ⟨rfl, rfl, rfl, rfl⟩

end XBR
